import Mathlib

/-!
Verification of the VoiceInput utility scripts (`generate_icon.py`, `split.py`)
against their specification.

The two scripts are embedded shallowly:
* images are finite row-major pixel grids, PIL primitives (`Image.new`, `putdata`,
  `getdata`, `paste` with a mask) are modelled on them;
* the drawing routine becomes the pure sequence of draw calls it issues;
* the file splitter becomes pure functions from the line buffer to the emitted
  file contents, plus an event trace recording the order of its filesystem
  side effects.

Python floats are modelled as exact reals (for the radial gradient, whose factor
uses a fractional power) or exact rationals (everywhere else, where the
quantities are ratios of machine-size integers).
-/

namespace VoiceInput

/-! ### Image model (the PIL subset the scripts use) -/

/-- An RGB pixel value: the triple of channel integers a Python color tuple holds. -/
abbrev RGB : Type := ℤ × ℤ × ℤ

/-- Channel projection `c[i]` on a pixel tuple, for `i ∈ {0, 1, 2}`. -/
def chan (i : ℕ) (c : RGB) : ℤ :=
  if i = 0 then c.1 else if i = 1 then c.2.1 else c.2.2

/-- A PIL image in mode `RGB`: its size and its row-major pixel data. -/
structure Image where
  width : ℕ
  height : ℕ
  data : List RGB

/-- PIL `Image.new('RGB', (w, h), color)`: a uniform fill.  `Image.new('RGB', (w, h))`
with no color argument fills with black `(0, 0, 0)`. -/
def Image.new (w h : ℕ) (color : RGB) : Image :=
  ⟨w, h, List.replicate (w * h) color⟩

/-- PIL `img.putdata(d)`: replace the pixel data, starting at the first pixel. -/
def Image.putdata (img : Image) (d : List RGB) : Image :=
  ⟨img.width, img.height, d⟩

/-- PIL `img.getdata()`. -/
def Image.getdata (img : Image) : List RGB := img.data

/-- PIL `img.size`. -/
def Image.size (img : Image) : ℕ × ℕ := (img.width, img.height)

/-- The pixel at `(x, y)` of a row-major image (`img.getpixel((x, y))`). -/
def Image.pixelAt (img : Image) (x y : ℕ) : RGB :=
  img.data.getD (y * img.width + x) (0, 0, 0)

/-- Row-major data built by the double loop
`for y in range(h): for x in range(w): data.append(g y x)`. -/
def gridData {α : Type} (w h : ℕ) (g : ℕ → ℕ → α) : List α :=
  (List.range h).flatMap (fun y => (List.range w).map (fun x => g y x))

/-- Python `zip` of three equal-length sequences, combined by `f`. -/
def zipWith3 {α β γ δ : Type} (f : α → β → γ → δ) : List α → List β → List γ → List δ
  | a :: as, b :: bs, c :: cs => f a b c :: zipWith3 f as bs cs
  | _, _, _ => []

theorem gridData_succ {α : Type} (w h : ℕ) (g : ℕ → ℕ → α) :
    gridData w (h + 1) g = gridData w h g ++ (List.range w).map (fun x => g h x) := by
  unfold gridData
  rw [show h + 1 = h.succ from rfl, List.range_succ, List.flatMap_append]
  simp

theorem gridData_length {α : Type} (w h : ℕ) (g : ℕ → ℕ → α) :
    (gridData w h g).length = h * w := by
  induction h with
  | zero => simp [gridData]
  | succ n ih => rw [gridData_succ]; simp [ih]; ring

theorem gridData_getElem? {α : Type} {w h x y : ℕ} (g : ℕ → ℕ → α)
    (hx : x < w) (hy : y < h) :
    (gridData w h g)[y * w + x]? = some (g y x) := by
  induction h with
  | zero => omega
  | succ n ih =>
    rw [gridData_succ]
    rcases Nat.lt_or_ge y n with hlt | hge
    · rw [List.getElem?_append_left (by rw [gridData_length]; calc
        y * w + x < y * w + w := by omega
        _ = (y + 1) * w := by ring
        _ ≤ n * w := Nat.mul_le_mul_right w (by omega))]
      exact ih hlt
    · have hyn : y = n := by omega
      subst hyn
      rw [List.getElem?_append_right (by rw [gridData_length]; omega)]
      rw [gridData_length]
      have : y * w + x - y * w = x := by omega
      rw [this]
      simp [List.getElem?_map, List.getElem?_range, hx]

theorem zipWith3_getElem? {α β γ δ : Type} (f : α → β → γ → δ) :
    ∀ (as : List α) (bs : List β) (cs : List γ) (i : ℕ) (a : α) (b : β) (c : γ),
      as[i]? = some a → bs[i]? = some b → cs[i]? = some c →
      (zipWith3 f as bs cs)[i]? = some (f a b c)
  | a' :: as, b' :: bs, c' :: cs, 0, a, b, c, ha, hb, hc => by
    simp at ha hb hc; simp [zipWith3, ha, hb, hc]
  | a' :: as, b' :: bs, c' :: cs, i + 1, a, b, c, ha, hb, hc => by
    simp only [List.getElem?_cons_succ] at ha hb hc
    simpa [zipWith3] using zipWith3_getElem? f as bs cs i a b c ha hb hc
  | [], _, _, i,
    a, b, c, ha, hb, hc => by simp at ha
  | _ :: _, [], _, i, a, b, c, ha, hb, hc => by simp at hb
  | _ :: _, _ :: _, [], i, a, b, c, ha, hb, hc => by simp at hc

/-! ### `create_radial_gradient` (generate_icon.py, lines 5–37) -/

/-- The value `max_dist = math.sqrt(((width * 0.5) ** 2) + ((height * 0.5) ** 2))` (line 14). -/
noncomputable def max_dist (width height : ℕ) : ℝ :=
  Real.sqrt (((width : ℝ) * 0.5) ^ 2 + ((height : ℝ) * 0.5) ^ 2)

/-- The per-pixel `dist = math.sqrt((x - cx) ** 2 + (y - cy) ** 2)` (line 18), where
`cx, cy = center_offset[0] * width, center_offset[1] * height` (line 13). -/
noncomputable def pixelDist (width height : ℕ) (center_offset : ℝ × ℝ) (x y : ℕ) : ℝ :=
  Real.sqrt (((x : ℝ) - center_offset.1 * width) ^ 2 + ((y : ℝ) - center_offset.2 * height) ^ 2)

/-- The falloff `factor = max(0, 1 - (dist / max_dist) ** 0.7)` (line 20). -/
noncomputable def radialFactor (width height : ℕ) (center_offset : ℝ × ℝ) (x y : ℕ) : ℝ :=
  max 0 (1 - (pixelDist width height center_offset x y / max_dist width height) ^ (0.7 : ℝ))

/-- The mask byte `int(255 * factor)` (line 21).  The factor lies in `[0, 1]`, so Python's
truncation toward zero is the floor. -/
noncomputable def radialMaskVal (width height : ℕ) (center_offset : ℝ × ℝ) (x y : ℕ) : ℤ :=
  ⌊255 * radialFactor width height center_offset x y⌋

/-- Subscripting a Python `int`, as `c[i]` does when `c` is an int: `int` is not
subscriptable, so this always raises `TypeError`, modelled as `none`. -/
def pySubscriptInt (c : ℤ) (i : ℕ) : Option ℤ := none

/-- The function `create_radial_gradient(width, height, center_color, edge_color, center_offset=(0.5, 0.5))`
(lines 5–37).  `base` is filled with `edge_color`, `center_layer` with `center_color`, the mask
is a mode-`'L'` image holding the row-major bytes of the double loop, and then the loop

```
for i in range(3):
    result.putdata(list(zip(
        [c[i] for c in base.getdata()],
        [c[i] for c in center_layer.getdata()],
        [c[i] for c in mask.getdata()])))
```

runs once per channel index.  `getdata()` on the RGB images yields 3-tuples, so `c[i]` there is
the total projection `chan i`; but `getdata()` on the mode-`'L'` mask yields plain ints, so
`[c[i] for c in mask.getdata()]` subscripts an int and raises `TypeError` at its first element
(`pySubscriptInt`, sequenced with `mapM`).  The function therefore raises — returns `none` —
whenever the image has at least one pixel, and only a zero-pixel call ever returns an image. -/
noncomputable def create_radial_gradient (width height : ℕ) (center_color edge_color : RGB)
    (center_offset : ℝ × ℝ) : Option Image :=
  let base := Image.new width height edge_color
  let mask_data := gridData width height
    (fun y x => radialMaskVal width height center_offset x y)
  let center_layer := Image.new width height center_color
  let result := Image.new width height (0, 0, 0)
  (List.range 3).foldlM
    (fun res i => do
      let maskCh ← mask_data.mapM (fun c => pySubscriptInt c i)
      pure (res.putdata
        (zipWith3 (fun a b m => (a, b, m))
          (base.getdata.map (chan i)) (center_layer.getdata.map (chan i)) maskCh)))
    result

/-- For every positive size, `create_radial_gradient` raises (`none`): the first iteration of
the channel loop already subscripts the ints of the mask’s `getdata()`. -/
theorem create_radial_gradient_raises (w h : ℕ) (c e : RGB) (off : ℝ × ℝ)
    (hw : 0 < w) (hh : 0 < h) :
    create_radial_gradient w h c e off = none := by
  have hlen : (gridData w h (fun y x => radialMaskVal w h off x y)).length = h * w :=
    gridData_length w h _
  cases hgd : gridData w h (fun y x => radialMaskVal w h off x y) with
  | nil =>
    rw [hgd] at hlen
    simp only [List.length_nil] at hlen
    have hpos : 0 < h * w := Nat.mul_pos hh hw
    omega
  | cons m0 mrest =>
    have hloop : ∀ acc : List ℤ,
        List.mapM.loop (fun _ => (none : Option ℤ)) (m0 :: mrest) acc = none := by
      intro acc
      simp [List.mapM.loop]
    unfold create_radial_gradient
    rw [hgd]
    simp [pySubscriptInt, hloop, show List.range 3 = [0, 1, 2] from rfl]

/-- C1 (code bug).  The claim says `create_radial_gradient` returns an image of size
`(width, height)` whose center pixel is `center_color`.  In fact the function never returns an
image for any positive size: line 34 (`[c[i] for c in mask.getdata()]`) subscripts the plain
ints that a mode-`'L'` image’s `getdata()` yields, raising `TypeError` during the `i = 0`
iteration.  At the claim’s instance `(2, 2, (10, 20, 30), (0, 0, 0))` the call raises instead
of producing any image, let alone one with the guaranteed center pixel. -/
theorem c1_radial_center_pixel_bug :
    create_radial_gradient 2 2 (10, 20, 30) (0, 0, 0) (0.5, 0.5) = none :=
  create_radial_gradient_raises 2 2 (10, 20, 30) (0, 0, 0) (0.5, 0.5)
    (by norm_num) (by norm_num)

/-- C2 (code bug).  The pixel `(0, 0)` of a 2×2 call lies at distance exactly `max_dist` from
the center, so the claim requires it to be `edge_color`; but the call raises `TypeError` (the
same mask-subscript error as C1) and never produces a pixel at all. -/
theorem c2_radial_edge_pixel_bug :
    max_dist 2 2 ≤ pixelDist 2 2 (0.5, 0.5) 0 0 ∧
    create_radial_gradient 2 2 (0, 0, 0) (10, 20, 30) (0.5, 0.5) = none := by
  constructor
  · unfold max_dist pixelDist
    norm_num
  · exact create_radial_gradient_raises 2 2 (0, 0, 0) (10, 20, 30) (0.5, 0.5)
      (by norm_num) (by norm_num)

/-! ### `create_linear_gradient` (generate_icon.py, lines 40–57) -/

/-- The mask factor (lines 49–52): `y / height` when `direction == 'vertical'`, otherwise
`x / width`.  Python float division is modelled as exact rational division. -/
def linFactor (width height : ℕ) (direction : String) (x y : ℕ) : ℚ :=
  if direction = "vertical" then (y : ℚ) / height else (x : ℚ) / width

/-- The mask byte `int(255 * factor)` (line 53); the factor is in `[0, 1)`, so truncation toward
zero is the floor. -/
def linMaskVal (width height : ℕ) (direction : String) (x y : ℕ) : ℤ :=
  ⌊255 * linFactor width height direction x y⌋

/-- One channel of `base.paste(top, (0, 0), mask)`: PIL blends
`base + mask / 255 * (top - base)` and rounds to an integer.  We model the exact rational
blend; the properties verified below (value at mask byte `0`, monotonicity in the mask byte)
are unaffected by PIL's final rounding. -/
def blendChan (b t m : ℤ) : ℚ := (b : ℚ) + (m : ℚ) * ((t : ℚ) - (b : ℚ)) / 255

/-- PIL `base.paste(top, (0, 0), mask)` on one pixel. -/
def pasteBlend (b t : RGB) (m : ℤ) : ℚ × ℚ × ℚ :=
  (blendChan b.1 t.1 m, blendChan b.2.1 t.2.1 m, blendChan b.2.2 t.2.2 m)

/-- An image with rational channel values: the exact-blend result of a paste. -/
structure QImage where
  width : ℕ
  height : ℕ
  data : List (ℚ × ℚ × ℚ)

/-- The pixel at `(x, y)` of a row-major rational image. -/
def QImage.pixelAt (img : QImage) (x y : ℕ) : ℚ × ℚ × ℚ :=
  img.data.getD (y * img.width + x) (0, 0, 0)

/-- The function `create_linear_gradient(width, height, start_color, end_color, direction='vertical')`
(lines 40–57): `base` filled with `start_color`, `top` with `end_color`, the row-major
loop-built mask, and `base.paste(top, (0, 0), mask)` is returned. -/
def create_linear_gradient (width height : ℕ) (start_color end_color : RGB)
    (direction : String) : QImage :=
  let base := Image.new width height start_color
  let top := Image.new width height end_color
  let mask_data := gridData width height (fun y x => linMaskVal width height direction x y)
  ⟨width, height, zipWith3 pasteBlend base.data top.data mask_data⟩

theorem create_linear_gradient_pixel (w h x y : ℕ) (s e : RGB) (d : String)
    (hx : x < w) (hy : y < h) :
    (create_linear_gradient w h s e d).pixelAt x y =
      pasteBlend s e (linMaskVal w h d x y) := by
  have hidx : y * w + x < w * h := by
    calc y * w + x < y * w + w := by omega
    _ = (y + 1) * w := by ring
    _ ≤ h * w := Nat.mul_le_mul_right w (by omega)
    _ = w * h := Nat.mul_comm h w
  have h1 : (List.replicate (w * h) s)[y * w + x]? = some s := by
    simp [List.getElem?_replicate, hidx]
  have h2 : (List.replicate (w * h) e)[y * w + x]? = some e := by
    simp [List.getElem?_replicate, hidx]
  have h3 : (gridData w h (fun y x => linMaskVal w h d x y))[y * w + x]? =
      some (linMaskVal w h d x y) :=
    gridData_getElem? (fun y x => linMaskVal w h d x y) hx hy
  unfold QImage.pixelAt create_linear_gradient Image.new
  rw [List.getD_eq_getElem?_getD, zipWith3_getElem? pasteBlend _ _ _ _ _ _ _ h1 h2 h3]
  rfl

theorem linMaskVal_zero_row (w h x : ℕ) : linMaskVal w h "vertical" x 0 = 0 := by
  simp [linMaskVal, linFactor]

theorem linMaskVal_nonneg (w h x y : ℕ) (d : String) : 0 ≤ linMaskVal w h d x y := by
  unfold linMaskVal linFactor
  apply Int.floor_nonneg.mpr
  split <;> positivity

theorem linFactor_vertical (w h x y : ℕ) : linFactor w h "vertical" x y = (y : ℚ) / h := by
  simp [linFactor]

theorem linMaskVal_vertical_mono (w h x y1 y2 : ℕ) (hy : y1 ≤ y2) :
    linMaskVal w h "vertical" x y1 ≤ linMaskVal w h "vertical" x y2 := by
  apply Int.floor_le_floor
  rw [linFactor_vertical, linFactor_vertical]
  gcongr


theorem linMaskVal_vertical_le (w h x y : ℕ) (hh : 0 < h) (hy : y < h) :
    linMaskVal w h "vertical" x y ≤ 255 := by
  have h255 : (255 : ℤ) = ⌊(255 : ℚ)⌋ := by norm_num
  rw [h255]
  apply Int.floor_le_floor
  rw [linFactor_vertical]
  have hle : (y : ℚ) / h ≤ 1 := by
    rw [div_le_one (by positivity)]
    exact_mod_cast Nat.le_of_lt hy
  nlinarith

/-- At mask byte `0` the blend returns the base channel. -/
theorem blendChan_zero (b t : ℤ) : blendChan b t 0 = (b : ℚ) := by
  simp [blendChan]

/-- A larger mask byte (still at most 255) moves the blended channel no farther from the top
channel. -/
theorem blendChan_toward (b t m1 m2 : ℤ) (h12 : m1 ≤ m2) (h2 : m2 ≤ 255) :
    |blendChan b t m2 - (t : ℚ)| ≤ |blendChan b t m1 - (t : ℚ)| := by
  have key : ∀ m : ℤ, blendChan b t m - (t : ℚ) = ((b : ℚ) - t) * ((255 - m) / 255) := by
    intro m; unfold blendChan; ring
  rw [key, key, abs_mul, abs_mul]
  apply mul_le_mul_of_nonneg_left _ (abs_nonneg _)
  have e2 : |((255 : ℚ) - m2) / 255| = (255 - (m2 : ℚ)) / 255 := by
    rw [abs_of_nonneg]
    have : (m2 : ℚ) ≤ 255 := by exact_mod_cast h2
    exact div_nonneg (by linarith) (by norm_num)
  have e1 : |((255 : ℚ) - m1) / 255| = (255 - (m1 : ℚ)) / 255 := by
    rw [abs_of_nonneg]
    have : (m1 : ℚ) ≤ 255 := by exact_mod_cast le_trans h12 h2
    exact div_nonneg (by linarith) (by norm_num)
  rw [e1, e2]
  have : (m1 : ℚ) ≤ m2 := by exact_mod_cast h12
  linarith

/-- A larger nonnegative mask byte moves the blended channel no closer to the base channel. -/
theorem blendChan_away (b t m1 m2 : ℤ) (h1 : 0 ≤ m1) (h12 : m1 ≤ m2) :
    |blendChan b t m1 - (b : ℚ)| ≤ |blendChan b t m2 - (b : ℚ)| := by
  have key : ∀ m : ℤ, blendChan b t m - (b : ℚ) = ((t : ℚ) - b) * ((m : ℚ) / 255) := by
    intro m; unfold blendChan; ring
  rw [key, key, abs_mul, abs_mul]
  apply mul_le_mul_of_nonneg_left _ (abs_nonneg _)
  have e1 : |(m1 : ℚ) / 255| = (m1 : ℚ) / 255 := by
    rw [abs_of_nonneg]
    exact div_nonneg (by exact_mod_cast h1) (by norm_num)
  have e2 : |(m2 : ℚ) / 255| = (m2 : ℚ) / 255 := by
    rw [abs_of_nonneg]
    exact div_nonneg (by exact_mod_cast le_trans h1 h12) (by norm_num)
  rw [e1, e2]
  have : (m1 : ℚ) ≤ m2 := by exact_mod_cast h12
  linarith

/-- C6.  For the vertical linear gradient: every pixel of row 0 is exactly `start_color`;
the blend factor `y / height` strictly increases with the row index; and down any fixed column
each channel moves monotonically toward `end_color` and away from `start_color` as the row
index grows (so the bottom row is the one closest to `end_color`). -/
theorem c6_linear_vertical (w h : ℕ) (s e : RGB) (x : ℕ)
    (hw : 0 < w) (hh : 0 < h) (hx : x < w) :
    (create_linear_gradient w h s e "vertical").pixelAt x 0 =
      ((s.1 : ℚ), (s.2.1 : ℚ), (s.2.2 : ℚ)) ∧
    (∀ y1 y2 : ℕ, y1 < y2 → y2 < h →
      linFactor w h "vertical" x y1 < linFactor w h "vertical" x y2) ∧
    (∀ y1 y2 : ℕ, y1 ≤ y2 → y2 < h →
      (|((create_linear_gradient w h s e "vertical").pixelAt x y2).1 - (e.1 : ℚ)| ≤
        |((create_linear_gradient w h s e "vertical").pixelAt x y1).1 - (e.1 : ℚ)|) ∧
      (|((create_linear_gradient w h s e "vertical").pixelAt x y2).2.1 - (e.2.1 : ℚ)| ≤
        |((create_linear_gradient w h s e "vertical").pixelAt x y1).2.1 - (e.2.1 : ℚ)|) ∧
      (|((create_linear_gradient w h s e "vertical").pixelAt x y2).2.2 - (e.2.2 : ℚ)| ≤
        |((create_linear_gradient w h s e "vertical").pixelAt x y1).2.2 - (e.2.2 : ℚ)|) ∧
      (|((create_linear_gradient w h s e "vertical").pixelAt x y1).1 - (s.1 : ℚ)| ≤
        |((create_linear_gradient w h s e "vertical").pixelAt x y2).1 - (s.1 : ℚ)|) ∧
      (|((create_linear_gradient w h s e "vertical").pixelAt x y1).2.1 - (s.2.1 : ℚ)| ≤
        |((create_linear_gradient w h s e "vertical").pixelAt x y2).2.1 - (s.2.1 : ℚ)|) ∧
      (|((create_linear_gradient w h s e "vertical").pixelAt x y1).2.2 - (s.2.2 : ℚ)| ≤
        |((create_linear_gradient w h s e "vertical").pixelAt x y2).2.2 - (s.2.2 : ℚ)|)) := by
  refine ⟨?_, ?_, ?_⟩
  · rw [create_linear_gradient_pixel w h x 0 s e "vertical" hx hh, linMaskVal_zero_row]
    simp [pasteBlend, blendChan_zero]
  · intro y1 y2 h12 h2h
    rw [linFactor_vertical, linFactor_vertical]
    exact div_lt_div_of_pos_right (by exact_mod_cast h12) (by exact_mod_cast hh)
  · intro y1 y2 h12 h2h
    have hy1 : y1 < h := lt_of_le_of_lt h12 h2h
    rw [create_linear_gradient_pixel w h x y1 s e "vertical" hx hy1,
        create_linear_gradient_pixel w h x y2 s e "vertical" hx h2h]
    have hmono := linMaskVal_vertical_mono w h x y1 y2 h12
    have hle := linMaskVal_vertical_le w h x y2 hh h2h
    have hnn := linMaskVal_nonneg w h x y1 "vertical"
    exact ⟨blendChan_toward _ _ _ _ hmono hle, blendChan_toward _ _ _ _ hmono hle,
      blendChan_toward _ _ _ _ hmono hle, blendChan_away _ _ _ _ hnn hmono,
      blendChan_away _ _ _ _ hnn hmono, blendChan_away _ _ _ _ hnn hmono⟩

/-- Witness for C6 at `w = h = 2`, `x = 1`, `start_color = (0, 10, 20)`,
`end_color = (255, 0, 100)`. -/
theorem c6_linear_vertical_witness :
    (0 : ℕ) < 2 ∧ (1 : ℕ) < 2 ∧
    (create_linear_gradient 2 2 (0, 10, 20) (255, 0, 100) "vertical").pixelAt 1 0 =
      ((0 : ℚ), (10 : ℚ), (20 : ℚ)) :=
  ⟨by decide, by decide,
    (c6_linear_vertical 2 2 (0, 10, 20) (255, 0, 100) 1
      (by decide) (by decide) (by decide)).1⟩

/-- C7.  Any direction value other than `"vertical"` produces exactly the image of the
horizontal behavior, and its blend factor at column `x` is `x / width`, independent of the
row. -/
theorem c7_linear_fallback (w h : ℕ) (s e : RGB) (d : String) (hd : d ≠ "vertical") :
    create_linear_gradient w h s e d = create_linear_gradient w h s e "horizontal" ∧
    ∀ x y : ℕ, linFactor w h d x y = (x : ℚ) / w := by
  have hfac : ∀ x y : ℕ, linFactor w h d x y = (x : ℚ) / w := by
    intro x y; simp [linFactor, hd]
  refine ⟨?_, hfac⟩
  have hmask : (fun (y x : ℕ) => linMaskVal w h d x y) =
      (fun (y x : ℕ) => linMaskVal w h "horizontal" x y) := by
    funext y x
    simp [linMaskVal, linFactor, hd]
  simp only [create_linear_gradient]
  rw [hmask]

/-- Witness for C7 at the direction string `"diagonal"`. -/
theorem c7_linear_fallback_witness :
    "diagonal" ≠ "vertical" ∧
    create_linear_gradient 2 2 (1, 2, 3) (4, 5, 6) "diagonal" =
      create_linear_gradient 2 2 (1, 2, 3) (4, 5, 6) "horizontal" :=
  ⟨by decide, (c7_linear_fallback 2 2 (1, 2, 3) (4, 5, 6) "diagonal" (by decide)).1⟩

/-! ### `hex_to_rgb` (generate_icon.py, lines 60–62) -/

/-- Python `int(q)`: truncation toward zero. -/
def pyInt (q : ℚ) : ℤ := if q < 0 then -⌊-q⌋ else ⌊q⌋

/-- One primitive call on a PIL `ImageDraw` surface.  `xy` is the coordinate list, colors are
the tuples passed for `fill`/`outline` (`none` when the argument is `None` or omitted), and
`width` is the stroke width (PIL's default `1` when omitted). -/
inductive DrawCall where
  | ellipse (xy : List ℚ) (fill : Option (List ℤ)) (outline : Option (List ℤ)) (width : ℤ)
  | rectangle (xy : List ℚ) (fill : Option (List ℤ)) (outline : Option (List ℤ)) (width : ℤ)
  | line (xy : List ℚ) (fill : Option (List ℤ)) (width : ℤ)
  | arc (xy : List ℚ) (start stop : ℤ) (fill : Option (List ℤ)) (width : ℤ)
  deriving DecidableEq

/-- The routine `draw_microphone_shiny(draw, center_x, center_y, scale)` (lines 65–150) as the sequence of
draw calls it issues on the surface.  The body reassigns `scale = 1.0` at line 74 before any
use of the parameter; the reassigned local is `scale1` here, and the `scale` argument is never
read. -/
def draw_microphone_shiny (center_x center_y scale : ℚ) : List DrawCall :=
  let gold_dark : List ℤ := [139, 90, 43]
  let gold_medium : List ℤ := [212, 175, 55]
  let gold_light : List ℤ := [255, 215, 0]
  let gold_highlight : List ℤ := [255, 255, 200]
  let scale1 : ℚ := 1.0
  let body_w := 220 * scale1
  let body_h := 380 * scale1
  let body_x := center_x - body_w / 2
  let body_y := center_y - body_h / 2 - 80 * scale1
  let shadow_offset := 10 * scale1
  let grid_color := gold_dark
  let stand_w := 140 * scale1
  let stand_h := 120 * scale1
  let stand_x := center_x - stand_w / 2
  let stand_y := body_y + body_h
  let base_w := 200 * scale1
  let base_h := 30 * scale1
  let base_x := center_x - base_w / 2
  let base_y := stand_y + stand_h * 1.5
  [DrawCall.ellipse [body_x + shadow_offset, body_y + shadow_offset,
      body_x + body_w + shadow_offset, body_y + body_h + shadow_offset]
      (some [0, 0, 0, 80]) none 1,
   DrawCall.ellipse [body_x, body_y, body_x + body_w, body_y + body_h * 0.25]
      (some gold_light) (some gold_dark) (pyInt (8 * scale1)),
   DrawCall.ellipse [body_x, body_y + body_h * 0.75, body_x + body_w, body_y + body_h]
      (some gold_dark) (some gold_dark) (pyInt (8 * scale1)),
   DrawCall.rectangle [body_x, body_y + body_h * 0.125, body_x + body_w, body_y + body_h * 0.875]
      (some gold_medium) none 1,
   DrawCall.line [body_x + 20 * scale1, body_y + 30 * scale1,
      body_x + body_w - 20 * scale1, body_y + 30 * scale1]
      (some gold_highlight) (pyInt (6 * scale1))]
  ++ (List.range' 1 5).map (fun i =>
      let y := body_y + body_h * 0.2 + (body_h * 0.55 / 6) * (i : ℚ)
      DrawCall.line [body_x + 15 * scale1, y, body_x + body_w - 15 * scale1, y]
        (some grid_color) (pyInt (3 * scale1)))
  ++ (List.range' 1 5).map (fun i =>
      let x := body_x + body_w * 0.15 + (body_w * 0.7 / 6) * (i : ℚ)
      DrawCall.line [x, body_y + body_h * 0.2, x, body_y + body_h * 0.75]
        (some grid_color) (pyInt (3 * scale1)))
  ++ [DrawCall.arc [stand_x - 20 * scale1, stand_y, stand_x + stand_w + 20 * scale1,
        stand_y + stand_h * 2] 0 180 (some gold_medium) (pyInt (20 * scale1)),
      DrawCall.rectangle [center_x - 60 * scale1, stand_y + stand_h * 0.8,
        center_x + 60 * scale1, stand_y + stand_h * 1.0]
        (some gold_medium) (some gold_dark) (pyInt (4 * scale1)),
      DrawCall.ellipse [base_x, base_y, base_x + base_w, base_y + base_h]
        (some gold_dark) (some gold_medium) (pyInt (4 * scale1)),
      DrawCall.ellipse [base_x + 20 * scale1, base_y + 5 * scale1,
        base_x + base_w - 20 * scale1, base_y + base_h - 5 * scale1]
        none (some gold_light) (pyInt (2 * scale1))]

/-- C5.  The `scale` parameter of `draw_microphone_shiny` is inert: for any two scale
values the function issues the identical sequence of draw calls, with identical geometry and
colors, because the body overwrites `scale` with `1.0` before its first use. -/
theorem c5_scale_inert (center_x center_y : ℚ) (s1 s2 : ℚ) :
    draw_microphone_shiny center_x center_y s1 = draw_microphone_shiny center_x center_y s2 :=
  rfl

/-! ### The view splitter (split.py) -/

/-- The constant `settings_view_path` (split.py, lines 3–4). -/
def settings_view_path : String :=
  "/Users/tenyi/Projects/VoiceInput/VoiceInput/SettingsView.swift"

/-- The constant `views_dir` (line 9). -/
def views_dir : String :=
  "/Users/tenyi/Projects/VoiceInput/VoiceInput/Settings/Views"

/-- The content `write_view(filename, start, end, extra_imports)` writes (lines 12–18), as the
list of its lines: `"import SwiftUI\n"`, one `"import X\n"` line per extra import, a blank
separator line, then the verbatim buffer lines of the half-open slice `[start, end)`.  The
file's bytes are the concatenation of these pieces; buffer lines keep the trailing newline
`readlines` gives them. -/
def view_content_lines (lines : List String) (start stop : ℕ) (extra_imports : List String) :
    List String :=
  ["import SwiftUI\n"] ++ extra_imports.map (fun imp => "import " ++ imp ++ "\n") ++
    ["\n"] ++ (lines.drop start).take (stop - start)

/-- The six `write_view` calls (lines 21–27): filename, start, end, extra imports. -/
def view_configs : List (String × ℕ × ℕ × List String) :=
  [("GeneralSettingsView.swift", 54, 200, []),
   ("TranscriptionSettingsView.swift", 200, 220, []),
   ("ModelSettingsView.swift", 220, 451, []),
   ("LLMSettingsView.swift", 451, 830, ["os"]),
   ("HistorySettingsView.swift", 830, 886, []),
   ("CustomProviderSheets.swift", 886, 1081, [])]

/-- The six `(filename, content)` pairs the splitter emits, in call order. -/
def emitted_views (lines : List String) : List (String × List String) :=
  view_configs.map (fun c => (c.1, view_content_lines lines c.2.1 c.2.2.1 c.2.2.2))

/-- The content the splitter writes back over the original file (lines 30–33):
lines `[0, 54)`, a single blank line, then lines `[1081, end)`. -/
def rewritten_settings (lines : List String) : List String :=
  lines.take 54 ++ ["\n"] ++ lines.drop 1081

/-- A filesystem side effect of the splitter script. -/
inductive FsEvent where
  | readFile (path : String) (lines : List String)
  | writeFile (path : String) (content : List String)

def FsEvent.isRead : FsEvent → Bool
  | .readFile _ _ => true
  | .writeFile _ _ => false

/-- The splitter's straight-line execution (split.py, lines 6–33) as its ordered trace of
filesystem events: one read of the source file producing the line buffer, the six view writes
taking their lines from that buffer, then the overwrite of the source file. -/
def splitter_trace (lines : List String) : List FsEvent :=
  FsEvent.readFile settings_view_path lines ::
    ((emitted_views lines).map (fun p => FsEvent.writeFile (views_dir ++ "/" ++ p.1) p.2) ++
      [FsEvent.writeFile settings_view_path (rewritten_settings lines)])

theorem view_slice_getD (lines : List String) (s t i : ℕ) (hi : i < t - s) :
    ((lines.drop s).take (t - s)).getD i "" = lines.getD (s + i) "" := by
  rw [List.getD_eq_getElem?_getD, List.getD_eq_getElem?_getD,
    List.getElem?_take_of_lt hi, List.getElem?_drop]

theorem view_content_lines_getD (lines : List String) (s t : ℕ) (ex : List String) (i : ℕ)
    (hi : i < t - s) :
    (view_content_lines lines s t ex).getD (2 + ex.length + i) "" = lines.getD (s + i) "" := by
  have hstep : (view_content_lines lines s t ex)[2 + ex.length + i]? =
      ((lines.drop s).take (t - s))[i]? := by
    unfold view_content_lines
    rw [List.append_assoc, List.append_assoc]
    rw [show (["import SwiftUI\n"] ++ (ex.map (fun imp => "import " ++ imp ++ "\n") ++
        (["\n"] ++ (lines.drop s).take (t - s)))) =
      "import SwiftUI\n" :: (ex.map (fun imp => "import " ++ imp ++ "\n") ++
        ("\n" :: (lines.drop s).take (t - s))) from rfl]
    rw [show 2 + ex.length + i = (1 + ex.length + i) + 1 from by omega,
      List.getElem?_cons_succ,
      List.getElem?_append_right (by rw [List.length_map]; omega),
      List.length_map,
      show 1 + ex.length + i - ex.length = i + 1 from by omega,
      List.getElem?_cons_succ]
  rw [List.getD_eq_getElem?_getD, hstep, ← List.getD_eq_getElem?_getD,
    view_slice_getD lines s t i hi]

theorem view_content_lines_length (lines : List String) (s t : ℕ) (ex : List String) :
    (view_content_lines lines s t ex).length =
      2 + ex.length + min (t - s) (lines.length - s) := by
  unfold view_content_lines
  rw [List.length_append, List.length_append, List.length_append, List.length_take,
    List.length_drop, List.length_map]
  simp only [List.length_cons, List.length_nil]
  omega

theorem view_content_lines_head (lines : List String) (s t : ℕ) (ex : List String) :
    (view_content_lines lines s t ex).getD 0 "" = "import SwiftUI\n" := rfl

theorem view_content_lines_sep (lines : List String) (s t : ℕ) (ex : List String) :
    (view_content_lines lines s t ex).getD (1 + ex.length) "" = "\n" := by
  unfold view_content_lines
  rw [List.append_assoc, List.append_assoc]
  rw [List.getD_eq_getElem?_getD,
    show (["import SwiftUI\n"] ++ (ex.map (fun imp => "import " ++ imp ++ "\n") ++
      (["\n"] ++ (lines.drop s).take (t - s)))) =
      "import SwiftUI\n" :: (ex.map (fun imp => "import " ++ imp ++ "\n") ++
      ("\n" :: (lines.drop s).take (t - s))) from rfl,
    show 1 + ex.length = ex.length + 1 from by omega,
    List.getElem?_cons_succ,
    List.getElem?_append_right (by rw [List.length_map]),
    List.length_map, Nat.sub_self]
  simp

theorem view_configs_bounds (f : String) (s t : ℕ) (ex : List String)
    (hmem : (f, s, t, ex) ∈ view_configs) : s ≤ t ∧ t ≤ 1081 := by
  simp only [view_configs, List.mem_cons, Prod.mk.injEq, List.not_mem_nil, or_false] at hmem
  rcases hmem with ⟨-, hs, ht, -⟩ | ⟨-, hs, ht, -⟩ | ⟨-, hs, ht, -⟩ | ⟨-, hs, ht, -⟩ |
    ⟨-, hs, ht, -⟩ | ⟨-, hs, ht, -⟩ <;> omega

/-- C3.  Every emitted view file consists of the `import SwiftUI` line, one `import X` line
per extra import, a blank separator, then the verbatim buffer lines of `[start, end)`; in
particular `GeneralSettingsView.swift` holds exactly lines 55–200 (1-indexed) of the buffer
after its two header lines, and `LLMSettingsView.swift` has an `import os` line. -/
theorem c3_view_files (lines : List String) (h : 1081 ≤ lines.length) :
    (emitted_views lines).map Prod.fst =
      ["GeneralSettingsView.swift", "TranscriptionSettingsView.swift",
        "ModelSettingsView.swift", "LLMSettingsView.swift",
        "HistorySettingsView.swift", "CustomProviderSheets.swift"] ∧
    (∀ f s t ex, (f, s, t, ex) ∈ view_configs →
      (view_content_lines lines s t ex).getD 0 "" = "import SwiftUI\n" ∧
      (view_content_lines lines s t ex).getD (1 + ex.length) "" = "\n" ∧
      (view_content_lines lines s t ex).length = 2 + ex.length + (t - s) ∧
      ∀ i, i < t - s →
        (view_content_lines lines s t ex).getD (2 + ex.length + i) "" =
          lines.getD (s + i) "") ∧
    ((view_content_lines lines 54 200 []).length = 148 ∧
      (view_content_lines lines 54 200 []).getD 0 "" = "import SwiftUI\n" ∧
      (view_content_lines lines 54 200 []).getD 1 "" = "\n" ∧
      ∀ i, i < 146 →
        (view_content_lines lines 54 200 []).getD (2 + i) "" = lines.getD (54 + i) "") ∧
    ((view_content_lines lines 451 830 ["os"]).getD 0 "" = "import SwiftUI\n" ∧
      (view_content_lines lines 451 830 ["os"]).getD 1 "" = "import os\n" ∧
      (view_content_lines lines 451 830 ["os"]).getD 2 "" = "\n" ∧
      ∀ i, i < 379 →
        (view_content_lines lines 451 830 ["os"]).getD (3 + i) "" =
          lines.getD (451 + i) "") := by
  refine ⟨rfl, ?_, ⟨?_, rfl, rfl, ?_⟩, ⟨rfl, rfl, rfl, ?_⟩⟩
  · intro f s t ex hmem
    obtain ⟨hst, ht⟩ := view_configs_bounds f s t ex hmem
    refine ⟨view_content_lines_head lines s t ex, view_content_lines_sep lines s t ex, ?_,
      fun i hi => view_content_lines_getD lines s t ex i hi⟩
    rw [view_content_lines_length]
    omega
  · rw [view_content_lines_length]
    simp only [List.length_nil]
    omega
  · intro i hi
    exact view_content_lines_getD lines 54 200 [] i hi
  · intro i hi
    exact view_content_lines_getD lines 451 830 ["os"] i hi

/-- Witness for C3 on a 1081-line buffer. -/
theorem c3_view_files_witness :
    1081 ≤ (List.replicate 1081 "x\n").length ∧
    (emitted_views (List.replicate 1081 "x\n")).map Prod.fst =
      ["GeneralSettingsView.swift", "TranscriptionSettingsView.swift",
        "ModelSettingsView.swift", "LLMSettingsView.swift",
        "HistorySettingsView.swift", "CustomProviderSheets.swift"] :=
  ⟨by simp only [List.length_replicate, le_refl],
    (c3_view_files (List.replicate 1081 "x\n")
      (by simp only [List.length_replicate, le_refl])).1⟩

/-- C4.  The rewritten original is lines `[0, 54)`, a single blank separator line, then
lines `[1081, end)` of the buffer; for a 1200-line buffer that is `54 + (1200 - 1081) + 1 = 174`
lines. -/
theorem c4_rewritten_settings (lines : List String) (h : 1081 ≤ lines.length) :
    (rewritten_settings lines).length = 54 + 1 + (lines.length - 1081) ∧
    (∀ i, i < 54 → (rewritten_settings lines).getD i "" = lines.getD i "") ∧
    (rewritten_settings lines).getD 54 "" = "\n" ∧
    (∀ j, j < lines.length - 1081 →
      (rewritten_settings lines).getD (55 + j) "" = lines.getD (1081 + j) "") ∧
    (lines.length = 1200 → (rewritten_settings lines).length = 174) := by
  have hform : rewritten_settings lines =
      lines.take 54 ++ ("\n" :: lines.drop 1081) := by
    unfold rewritten_settings
    rw [List.append_assoc]
    rfl
  have htake : (lines.take 54).length = 54 := by
    rw [List.length_take]
    omega
  have hlen : (rewritten_settings lines).length = 54 + 1 + (lines.length - 1081) := by
    rw [hform, List.length_append, htake, List.length_cons, List.length_drop]
    omega
  refine ⟨hlen, ?_, ?_, ?_, fun _ => by omega⟩
  · intro i hi
    rw [hform, List.getD_eq_getElem?_getD,
      List.getElem?_append_left (by rw [htake]; omega),
      List.getElem?_take_of_lt hi, ← List.getD_eq_getElem?_getD]
  · rw [hform, List.getD_eq_getElem?_getD,
      List.getElem?_append_right (by rw [htake]),
      htake]
    simp
  · intro j hj
    rw [hform, List.getD_eq_getElem?_getD,
      List.getElem?_append_right (by rw [htake]; omega),
      htake,
      show 55 + j - 54 = j + 1 from by omega,
      List.getElem?_cons_succ, List.getElem?_drop, ← List.getD_eq_getElem?_getD]

/-- Witness for C4 on a 1200-line buffer. -/
theorem c4_rewritten_settings_witness :
    1081 ≤ (List.replicate 1200 "x\n").length ∧
    (rewritten_settings (List.replicate 1200 "x\n")).length = 174 :=
  ⟨by simp only [List.length_replicate]; omega,
    (c4_rewritten_settings (List.replicate 1200 "x\n")
      (by simp only [List.length_replicate]; omega)).2.2.2.2
      (by simp only [List.length_replicate])⟩

/-- C8.  The splitter's trace: the single read of the source file is the first event, the
six view writes follow, each taking its content from the buffer produced by that read, and the
overwrite of the source file is the last of the eight events, strictly after every view
write. -/
theorem c8_splitter_ordering (lines : List String) :
    (splitter_trace lines).head? = some (FsEvent.readFile settings_view_path lines) ∧
    (splitter_trace lines).countP (fun e => e.isRead) = 1 ∧
    (splitter_trace lines).getLast? =
      some (FsEvent.writeFile settings_view_path (rewritten_settings lines)) ∧
    (splitter_trace lines).length = 8 ∧
    splitter_trace lines =
      FsEvent.readFile settings_view_path lines ::
        ((emitted_views lines).map
            (fun p => FsEvent.writeFile (views_dir ++ "/" ++ p.1) p.2) ++
          [FsEvent.writeFile settings_view_path (rewritten_settings lines)]) :=
  ⟨rfl, rfl, rfl, rfl, rfl⟩

/-- C9.  Slicing is total for a buffer of any length: the splitter always performs its full
eight-event trace, emits the six view files in order, and each view's line count reflects the
slice truncated to the available lines; the rewrite is likewise truncated. -/
theorem c9_truncation (lines : List String) :
    (splitter_trace lines).length = 8 ∧
    (emitted_views lines).map Prod.fst =
      ["GeneralSettingsView.swift", "TranscriptionSettingsView.swift",
        "ModelSettingsView.swift", "LLMSettingsView.swift",
        "HistorySettingsView.swift", "CustomProviderSheets.swift"] ∧
    (emitted_views lines).map (fun p => p.2.length) =
      [2 + (min 200 lines.length - min 54 lines.length),
       2 + (min 220 lines.length - min 200 lines.length),
       2 + (min 451 lines.length - min 220 lines.length),
       3 + (min 830 lines.length - min 451 lines.length),
       2 + (min 886 lines.length - min 830 lines.length),
       2 + (min 1081 lines.length - min 886 lines.length)] ∧
    (rewritten_settings lines).length = min 54 lines.length + 1 + (lines.length - 1081) := by
  refine ⟨rfl, rfl, ?_, ?_⟩
  · simp only [emitted_views, view_configs, List.map_cons, List.map_nil, List.cons.injEq,
      and_true]
    refine ⟨?_, ?_, ?_, ?_, ?_, ?_⟩ <;>
      · rw [view_content_lines_length]
        simp only [List.length_cons, List.length_nil]
        omega
  · unfold rewritten_settings
    rw [List.length_append, List.length_append, List.length_take, List.length_drop]
    simp only [List.length_cons, List.length_nil]

end VoiceInput
